import Mathlib

/-!
Verification of the CodeDocs-AI asynchronous project-processing pipeline.

This file shallowly embeds, in Lean 4, the parts of the repository's backend
that the specification's claims are about:

* the pipeline orchestrator `process_project_async`
  (backend/routes/project_routes.py) as an explicit trace of database events
  over an environment recording which stage raised;
* the project status bookkeeping `Project.update_status`
  (backend/models/project.py);
* the security analyzer (backend/services/security_analyzer.py): batching,
  response parsing, record validation and `calculate_security_score`;
* the quality analyzer (backend/services/code_quality_analyzer.py):
  response parsing and `_validate_improvement` normalization;
* the RAG service (backend/services/rag_service.py): `answer_question`,
  `index_code_files`, `index_documentation`;
* `detect_language` (backend/utils/helpers.py) and
  `CodeAnalyzer.analyze_files` (backend/services/code_analyzer.py).

Stateful Python is modelled by explicit state passing: one pipeline run is a
list of database-update events, folded over an initial project row.  Fallible
external collaborators (the generative model, the embedding service, S3) are
modelled as `Except`-valued stage outcomes supplied by an environment, since
the claims quantify over which stage raises.
-/

namespace CodeDocs

/-! ## Project row bookkeeping (backend/models/project.py)

`Project.update_status` builds an UPDATE over: `status`, always;
`progress_percentage` when given; `progress_stage` when given (truncated to
200 chars); and `processed_at = NOW()` exactly when the new status is the
string `completed`.  The row model below keeps the fields the claims speak
about, plus a counter of how many times `processed_at` was assigned and a
count of Documentation rows created for the project. -/

structure ProjState where
  status : String
  progress_percentage : Nat
  progress_stage : String
  error_message : Option String
  processed_at_writes : Nat
  doc_rows : Nat
deriving DecidableEq, Repr

/-- Python `stage[:200] if len(stage) > 200 else stage` from `update_status`. -/
def pyTrunc200 (s : String) : String :=
  if s.length > 200 then String.mk (s.toList.take 200) else s

/-- `Project.update_status` (project.py lines 111-143): sets `status`,
optionally `progress_percentage` and the truncated `progress_stage`, and
writes `processed_at` whenever the new status is `completed`.  It never
touches `error_message`. -/
def update_status (p : ProjState) (st : String) (progress : Option Nat)
    (stage : Option String) : ProjState :=
  { p with
    status := st
    progress_percentage := progress.getD p.progress_percentage
    progress_stage := match stage with
      | some l => pyTrunc200 l
      | none => p.progress_stage
    processed_at_writes :=
      p.processed_at_writes + (if st = "completed" then 1 else 0) }

/-! ## The pipeline orchestrator (backend/routes/project_routes.py 36-237)

A run is modelled as the list of database events the thread performs, in
order.  `updFields` stands for a `Project.update(...)` call that writes only
stats/palette/score columns (none of the fields tracked here), `docCreate`
for `Documentation.create`, and the three stage markers record that the
corresponding background stage body was entered. -/

inductive PEvent where
  | updStatus (st : String) (progress : Option Nat) (stage : Option String)
  | updFields
  | docCreate
  | colorStage
  | secStage
  | qualStage
  | reindexStage
deriving DecidableEq, Repr

/-- Outcome of each fallible step of `process_project_async`: `ok` when the
Python code runs without raising, `error msg` when it raises with message
`msg`.  `docGen` is `doc_gen.generate`; `docCreateRes` is
`Documentation.create`; `s3Upload` is the documentation S3 upload. -/
structure PipelineEnv where
  analyze : Except String Unit
  color : Except String Unit
  docGen : Except String Unit
  docCreateRes : Except String Unit
  s3Upload : Except String Unit
  security : Except String Unit
  quality : Except String Unit
  reindex : Except String Unit

/-- The outer `except Exception` of `process_project_async` (lines 232-237):
`Project.update_status(project_id, 'failed', 0, f'Processing failed: {e}')`.
Note it stores the message into `progress_stage`, not `error_message`. -/
def failTrace (e : String) : List PEvent :=
  [.updStatus "failed" (some 0) (some ("Processing failed: " ++ e))]

/-- Event trace of one `process_project_async` run under outcome
environment `env`, following project_routes.py lines 44-237 line by line.
Structural analysis and everything up to the documentation S3 upload run
inside the outer try, so their exceptions reach the outer handler; the
color stage and each of the three background stages have their own inner
`try/except` that swallows the exception. -/
def process_project_async (env : PipelineEnv) : List PEvent :=
  .updStatus "processing" (some 10) (some "Analyzing code structure...") ::
  match env.analyze with
  | .error e => failTrace e
  | .ok _ =>
    .updFields ::
    .updStatus "processing" (some 20) (some "Analyzing color palette...") ::
    .colorStage ::
    ((match env.color with
      | .ok _ => [PEvent.updFields]
      | .error _ => []) ++
    .updStatus "processing" (some 40) (some "Generating documentation...") ::
    match env.docGen with
    | .error e => failTrace e
    | .ok _ =>
      match env.docCreateRes with
      | .error e => failTrace e
      | .ok _ =>
        .docCreate ::
        match env.s3Upload with
        | .error e => failTrace e
        | .ok _ =>
          .updStatus "completed" (some 100) (some "Documentation ready") ::
          .secStage ::
          ((match env.security with
            | .ok _ => [PEvent.updFields]
            | .error _ => []) ++
          .qualStage ::
          .reindexStage ::
          match env.reindex with
          | .ok _ =>
            [PEvent.updStatus "completed" (some 100)
              (some "All analysis complete - Chat ready!")]
          | .error _ =>
            [PEvent.updStatus "completed" (some 100)
              (some "Documentation ready (chat unavailable)")]))

/-- Effect of one database event on the project row. -/
def applyEvent (p : ProjState) : PEvent → ProjState
  | .updStatus st pr lbl => update_status p st pr lbl
  | .updFields => p
  | .docCreate => { p with doc_rows := p.doc_rows + 1 }
  | .colorStage => p
  | .secStage => p
  | .qualStage => p
  | .reindexStage => p

/-- Row produced by `Project.create` (project.py lines 26-45). -/
def initProjState : ProjState :=
  { status := "pending", progress_percentage := 0,
    progress_stage := "Initializing...", error_message := none,
    processed_at_writes := 0, doc_rows := 0 }

/-- Final project row after one pipeline run. -/
def runPipeline (env : PipelineEnv) : ProjState :=
  (process_project_async env).foldl applyEvent initProjState

/-- `true` when a `updStatus` event with status "failed" occurs in the trace. -/
def mentionsFailed (t : List PEvent) : Bool :=
  t.any fun e => match e with
    | .updStatus st _ _ => st = "failed"
    | _ => false

/-- `true` when event `x` occurs in the trace `t`. -/
def hasEvent (t : List PEvent) (x : PEvent) : Bool :=
  t.any fun e => decide (e = x)

def isOkE (x : Except String Unit) : Bool :=
  match x with
  | .ok _ => true
  | .error _ => false

/-- All four critical-path steps succeed. -/
def criticalOk (env : PipelineEnv) : Bool :=
  isOkE env.analyze && isOkE env.docGen && isOkE env.docCreateRes &&
    isOkE env.s3Upload

lemma string_length_eq_data (s : String) : s.length = s.data.length := rfl

lemma string_mk_length (l : List Char) : (String.mk l).length = l.length := rfl

lemma string_toList_eq_data (s : String) : s.toList = s.data := rfl

lemma pyTrunc200_length (s : String) :
    (pyTrunc200 s).length = min s.length 200 := by
  unfold pyTrunc200
  split
  · next h =>
    rw [string_mk_length, string_toList_eq_data, List.length_take,
      string_length_eq_data] at *
    omega
  · next h => omega

lemma pyTrunc200_ne_empty (s : String) (h : s.length ≠ 0) :
    pyTrunc200 s ≠ "" := by
  intro hc
  have hl := pyTrunc200_length s
  rw [hc] at hl
  have : ("" : String).length = 0 := rfl
  omega

lemma processing_failed_ne_empty (e : String) :
    pyTrunc200 ("Processing failed: " ++ e) ≠ "" := by
  apply pyTrunc200_ne_empty
  rw [String.length_append]
  have h19 : ("Processing failed: " : String).length = 19 := rfl
  omega

/-- A run where every stage succeeds. -/
def envAllOk : PipelineEnv :=
  ⟨.ok (), .ok (), .ok (), .ok (), .ok (), .ok (), .ok (), .ok ()⟩

/-- A run where only the retrieval-indexing stage raises. -/
def envReindexFails : PipelineEnv :=
  { envAllOk with reindex := .error "embedding service down" }

/-- A run where structural analysis raises. -/
def envAnalyzeFails : PipelineEnv :=
  { envAllOk with analyze := .error "unreadable file set" }

/-- C1: once documentation generation and its persistence succeed, the
project is marked `completed` with progress 100, no event of the run ever
sets status `failed` whatever the three background stages do, the
Documentation row survives, and a retrieval-indexing failure leaves the
project `completed` with the chat-unavailable stage label. -/
theorem c1_background_failures_never_fail_project (env : PipelineEnv)
    (ha : env.analyze = .ok ()) (hd : env.docGen = .ok ())
    (hdc : env.docCreateRes = .ok ()) (hs3 : env.s3Upload = .ok ()) :
    (runPipeline env).status = "completed" ∧
    (runPipeline env).progress_percentage = 100 ∧
    mentionsFailed (process_project_async env) = false ∧
    (runPipeline env).doc_rows = 1 ∧
    (isOkE env.reindex = false →
      (runPipeline env).progress_stage
        = "Documentation ready (chat unavailable)") := by
  obtain ⟨a, c, d, dc, s3, sec, q, r⟩ := env
  simp only at ha hd hdc hs3
  subst ha hd hdc hs3
  cases c <;> cases sec <;> cases r <;>
    refine ⟨rfl, rfl, rfl, rfl, fun h => ?_⟩ <;>
    first
      | rfl
      | exact Bool.noConfusion h

/-- C1 witness: concrete run in which only retrieval indexing raises. -/
theorem c1_background_failures_never_fail_project_witness :
    (runPipeline envReindexFails).status = "completed" ∧
    (runPipeline envReindexFails).progress_percentage = 100 ∧
    mentionsFailed (process_project_async envReindexFails) = false ∧
    (runPipeline envReindexFails).doc_rows = 1 ∧
    (isOkE envReindexFails.reindex = false →
      (runPipeline envReindexFails).progress_stage
        = "Documentation ready (chat unavailable)") :=
  c1_background_failures_never_fail_project envReindexFails rfl rfl rfl rfl

/-- C2 counterexample: when structural analysis raises, the run does end
`failed` with progress 0, but the `error_message` column is never written
(`update_status` stores the failure text into `progress_stage` only), so
the claim's "non-empty error message" is false on the code. -/
theorem c2_counterexample :
    (runPipeline envAnalyzeFails).status = "failed" ∧
    (runPipeline envAnalyzeFails).progress_percentage = 0 ∧
    (runPipeline envAnalyzeFails).error_message = none := by
  decide

/-- C2 (amended): when structural analysis or documentation generation
raises, the orchestrator sets status `failed` with progress 0, records a
non-empty failure text in the `progress_stage` label, leaves the
`error_message` column unset, creates no Documentation row, and runs no
further stage. -/
theorem c2_fatal_abort (env : PipelineEnv)
    (h : isOkE env.analyze = false ∨
      (env.analyze = .ok () ∧ isOkE env.docGen = false)) :
    (runPipeline env).status = "failed" ∧
    (runPipeline env).progress_percentage = 0 ∧
    (runPipeline env).progress_stage ≠ "" ∧
    (runPipeline env).error_message = none ∧
    (runPipeline env).doc_rows = 0 ∧
    hasEvent (process_project_async env) PEvent.docCreate = false ∧
    hasEvent (process_project_async env) PEvent.secStage = false ∧
    hasEvent (process_project_async env) PEvent.qualStage = false ∧
    hasEvent (process_project_async env) PEvent.reindexStage = false := by
  obtain ⟨a, c, d, dc, s3, sec, q, r⟩ := env
  rcases h with h | ⟨ha, h⟩
  · cases a with
    | ok u => cases u; exact Bool.noConfusion h
    | error e =>
      exact ⟨rfl, rfl, processing_failed_ne_empty e, rfl, rfl,
        rfl, rfl, rfl, rfl⟩
  · simp only at ha
    subst ha
    cases d with
    | ok u => cases u; exact Bool.noConfusion h
    | error e =>
      cases c with
      | ok u =>
        exact ⟨rfl, rfl, processing_failed_ne_empty e, rfl, rfl,
          rfl, rfl, rfl, rfl⟩
      | error ce =>
        exact ⟨rfl, rfl, processing_failed_ne_empty e, rfl, rfl,
          rfl, rfl, rfl, rfl⟩

/-- C2 witness: the amended statement at the concrete failing run. -/
theorem c2_fatal_abort_witness :
    (runPipeline envAnalyzeFails).status = "failed" ∧
    (runPipeline envAnalyzeFails).progress_percentage = 0 ∧
    (runPipeline envAnalyzeFails).progress_stage ≠ "" ∧
    (runPipeline envAnalyzeFails).error_message = none ∧
    (runPipeline envAnalyzeFails).doc_rows = 0 ∧
    hasEvent (process_project_async envAnalyzeFails) PEvent.docCreate = false ∧
    hasEvent (process_project_async envAnalyzeFails) PEvent.secStage = false ∧
    hasEvent (process_project_async envAnalyzeFails) PEvent.qualStage = false ∧
    hasEvent (process_project_async envAnalyzeFails) PEvent.reindexStage
      = false :=
  c2_fatal_abort envAnalyzeFails (Or.inl rfl)

/-- C4 counterexample: in a fully successful run `update_status` is called
with status `completed` twice (the checkpoint and the final background
transition) and each call writes `processed_at = NOW()`, so `processed_at`
is written more than once. -/
theorem c4_counterexample :
    ¬ ((runPipeline envAllOk).processed_at_writes ≤ 1) := by
  decide

/-- C4 (amended): `processed_at` is written on every `update_status` call
whose status is `completed`: exactly twice in a run whose critical path
(structural analysis, documentation generation and its persistence)
succeeds, and never in a run that aborts before the checkpoint. -/
theorem c4_processed_at_write_count (env : PipelineEnv) :
    (criticalOk env = true → (runPipeline env).processed_at_writes = 2) ∧
    (criticalOk env = false → (runPipeline env).processed_at_writes = 0) := by
  obtain ⟨a, c, d, dc, s3, sec, q, r⟩ := env
  cases a <;> cases c <;> cases d <;> cases dc <;> cases s3 <;> cases sec <;>
    cases r <;> refine ⟨fun h => ?_, fun h => ?_⟩ <;>
    first
      | rfl
      | exact Bool.noConfusion h

/-- C4 witness: the amended count at the all-successful run. -/
theorem c4_processed_at_write_count_witness :
    criticalOk envAllOk = true ∧
    (runPipeline envAllOk).processed_at_writes = 2 :=
  ⟨by decide, (c4_processed_at_write_count envAllOk).1 (by decide)⟩

/-! ## Python string primitives

The analyzers manipulate strings with `strip`, `lower`, `find`, `rfind`,
`in` and slicing.  These are modelled over `List Char` with Python's
conventions: `find`/`rfind` return an `Option` where Python returns `-1`,
and every caller below translates the `-1` arithmetic of the source
explicitly. -/

/-- Python whitespace for `str.strip()`. -/
def pyWs (c : Char) : Bool :=
  c = ' ' || c = '\t' || c = '\n' || c = '\r' || c = '\x0b' || c = '\x0c'

/-- Python `s.strip()`. -/
def pyStrip (l : List Char) : List Char :=
  ((l.dropWhile pyWs).reverse.dropWhile pyWs).reverse

/-- Python `s.lower()` (ASCII is all the analyzers use). -/
def lowerL (l : List Char) : List Char := l.map Char.toLower

/-- Does `pat` occur at the head of `s`? -/
def beginsWith : List Char → List Char → Bool
  | [], _ => true
  | _ :: _, [] => false
  | p :: ps, c :: cs => p == c && beginsWith ps cs

def findAux (pat : List Char) : List Char → Nat → Option Nat
  | [], i => if beginsWith pat [] then some i else none
  | c :: cs, i =>
    if beginsWith pat (c :: cs) then some i else findAux pat cs (i + 1)

/-- Python `s.find(pat, start)`, with `none` for `-1`. -/
def pyFind (s pat : List Char) (start : Nat) : Option Nat :=
  (findAux pat (s.drop start) 0).map (· + start)

/-- Python `pat in s`. -/
def pyContains (s pat : List Char) : Bool := (pyFind s pat 0).isSome

/-- Python `s.rfind(pat)`, with `none` for `-1`. -/
def pyRFind (s pat : List Char) : Option Nat :=
  ((List.range (s.length + 1)).filter fun i => beginsWith pat (s.drop i)).getLast?

/-- Python `s[a:b]` for non-negative bounds. -/
def pySlice (s : List Char) (a b : Nat) : List Char := (s.take b).drop a

/-- Python `pat in s` on `String`s. -/
def pyContainsS (s pat : String) : Bool := pyContains s.toList pat.toList

/-- Python `s.lower().strip()` on `String`s. -/
def pyLowerStripS (s : String) : String := String.mk (pyStrip (lowerL s.toList))

/-! ## A model of `json.loads`

`_parse_findings` / `_parse_improvements` call `json.loads` on the text
they extracted from the model response.  The parser below implements the
strict JSON grammar (as the Python `json` module accepts it): values,
double-quoted strings with escapes, numbers with optional sign / fraction /
exponent kept as their lexeme, arrays and objects.  Python dicts keep the
first insertion position of a key and let a later duplicate key overwrite
the value, which `dictInsert` reproduces.  Surrogate-pair combination in
`\u` escapes is not modelled (no claim touches it). -/

inductive Json where
  | null
  | boolean (b : Bool)
  | num (lexeme : String)
  | str (s : String)
  | arr (elems : List Json)
  | obj (fields : List (String × Json))

/-- A parsed JSON object, i.e. a Python dict. -/
abbrev Dict := List (String × Json)

def Json.isArr : Json → Bool
  | .arr _ => true
  | _ => false

def dictGet (d : Dict) (k : String) : Option Json :=
  (d.find? fun p => p.1 == k).map (·.2)

def dictHas (d : Dict) (k : String) : Bool := d.any fun p => p.1 == k

/-- Python `d[k] = v`: overwrite the key's entry in place if it exists
(a Python dict keeps the key's original position), else append. -/
def dictInsert : Dict → String → Json → Dict
  | [], k, v => [(k, v)]
  | p :: rest, k, v =>
    if p.1 == k then (k, v) :: rest else p :: dictInsert rest k v

def jsonWs (c : Char) : Bool := c = ' ' || c = '\t' || c = '\n' || c = '\r'

def skipWs (s : List Char) : List Char := s.dropWhile jsonWs

/-- Value of one hex digit of a `\u` escape, by code point:
`0`-`9` are 48-57, `a`-`f` are 97-102, `A`-`F` are 65-70. -/
def hexVal (c : Char) : Option Nat :=
  let n := c.toNat
  if 48 ≤ n && n ≤ 57 then some (n - 48)
  else if 97 ≤ n && n ≤ 102 then some (n - 87)
  else if 65 ≤ n && n ≤ 70 then some (n - 55)
  else none

/-- Body of a JSON string after the opening quote; returns the decoded
characters and the input after the closing quote. -/
def parseStrAux : Nat → List Char → Option (List Char × List Char)
  | 0, _ => none
  | _ + 1, [] => none
  | f + 1, c :: cs =>
    if c = '"' then some ([], cs)
    else if c = '\\' then
      match cs with
      | [] => none
      | e :: cs2 =>
        if e = 'u' then
          match cs2 with
          | h1 :: h2 :: h3 :: h4 :: cs3 =>
            match hexVal h1, hexVal h2, hexVal h3, hexVal h4 with
            | some a, some b, some c2, some d =>
              let ch := Char.ofNat (((a * 16 + b) * 16 + c2) * 16 + d)
              (parseStrAux f cs3).map fun r => (ch :: r.1, r.2)
            | _, _, _, _ => none
          | _ => none
        else
          let ech : Option Char :=
            if e = '"' then some '"'
            else if e = '\\' then some '\\'
            else if e = '/' then some '/'
            else if e = 'b' then some (Char.ofNat 8)
            else if e = 'f' then some (Char.ofNat 12)
            else if e = 'n' then some '\n'
            else if e = 'r' then some '\r'
            else if e = 't' then some '\t'
            else none
          match ech with
          | none => none
          | some ch => (parseStrAux f cs2).map fun r => (ch :: r.1, r.2)
    else (parseStrAux f cs).map fun r => (c :: r.1, r.2)

/-- Optional exponent part of a JSON number. -/
def numAfterExp (lex : List Char) (rest : List Char) : Option (Json × List Char) :=
  match rest with
  | e :: t =>
    if e = 'e' || e = 'E' then
      let sgnAndTail : List Char × List Char :=
        match t with
        | '+' :: u => (['+'], u)
        | '-' :: u => (['-'], u)
        | _ => ([], t)
      let ed := sgnAndTail.2.takeWhile Char.isDigit
      if ed = [] then none
      else some (.num (String.mk (lex ++ e :: sgnAndTail.1 ++ ed)),
        sgnAndTail.2.dropWhile Char.isDigit)
    else some (.num (String.mk lex), rest)
  | [] => some (.num (String.mk lex), [])

/-- Optional fraction part of a JSON number. -/
def numAfterInt (lex : List Char) (rest : List Char) : Option (Json × List Char) :=
  match rest with
  | '.' :: t =>
    let fd := t.takeWhile Char.isDigit
    if fd = [] then none
    else numAfterExp (lex ++ '.' :: fd) (t.dropWhile Char.isDigit)
  | _ => numAfterExp lex rest

/-- JSON number: `-? (0 | [1-9][0-9]*) frac? exp?`, kept as its lexeme. -/
def parseNumLex (s : List Char) : Option (Json × List Char) :=
  let signAndTail : List Char × List Char :=
    match s with
    | '-' :: t => (['-'], t)
    | _ => ([], s)
  match signAndTail.2 with
  | [] => none
  | c :: t =>
    if c = '0' then numAfterInt (signAndTail.1 ++ ['0']) t
    else if c.isDigit then
      numAfterInt (signAndTail.1 ++ (c :: t).takeWhile Char.isDigit)
        ((c :: t).dropWhile Char.isDigit)
    else none

mutual

def parseValue : Nat → List Char → Option (Json × List Char)
  | 0, _ => none
  | f + 1, s =>
    let s1 := skipWs s
    if beginsWith "null".toList s1 then some (.null, s1.drop 4)
    else if beginsWith "true".toList s1 then some (.boolean true, s1.drop 4)
    else if beginsWith "false".toList s1 then some (.boolean false, s1.drop 5)
    else
      match s1 with
      | [] => none
      | c :: cs =>
        if c = '"' then
          (parseStrAux (cs.length + 1) cs).map fun r =>
            (Json.str (String.mk r.1), r.2)
        else if c = '[' then
          match skipWs cs with
          | ']' :: rest => some (.arr [], rest)
          | cs1 => (parseElems f cs1).map fun r => (Json.arr r.1, r.2)
        else if c = '{' then
          match skipWs cs with
          | '}' :: rest => some (.obj [], rest)
          | cs1 =>
            (parseFields f cs1).map fun r =>
              (Json.obj (r.1.foldl (fun d p => dictInsert d p.1 p.2) []), r.2)
        else parseNumLex s1

def parseElems : Nat → List Char → Option (List Json × List Char)
  | 0, _ => none
  | f + 1, s =>
    match parseValue f s with
    | none => none
    | some (v, rest) =>
      match skipWs rest with
      | ',' :: r2 => (parseElems f r2).map fun r => (v :: r.1, r.2)
      | ']' :: r2 => some ([v], r2)
      | _ => none

def parseFields : Nat → List Char → Option (List (String × Json) × List Char)
  | 0, _ => none
  | f + 1, s =>
    match skipWs s with
    | '"' :: cs =>
      match parseStrAux (cs.length + 1) cs with
      | none => none
      | some (k, rest) =>
        match skipWs rest with
        | ':' :: r2 =>
          match parseValue f r2 with
          | none => none
          | some (v, r3) =>
            match skipWs r3 with
            | ',' :: r4 =>
              (parseFields f r4).map fun r => ((String.mk k, v) :: r.1, r.2)
            | '}' :: r4 => some ([(String.mk k, v)], r4)
            | _ => none
        | _ => none
    | _ => none

end

/-- `json.loads`: parse one value and require only whitespace after it. -/
def jsonLoads (s : List Char) : Option Json :=
  match parseValue (2 * s.length + 2) s with
  | none => none
  | some (v, rest) => if skipWs rest = [] then some v else none

/-! ## Model-response parsing
(security_analyzer.py `_parse_findings` lines 131-200 and
code_quality_analyzer.py `_parse_improvements` lines 116-185; the
extraction code of the two files is line-for-line identical, so it is
embedded once). -/

/-- The fenced-block and bracket extraction performed on the raw model
response before `json.loads`: strip; prefer a ```json fenced block, else
any fenced block (skipping a short language-tag line); then slice from the
first `[` to the last `]`; strip again.  Python's `-1` results of
`find`/`rfind` and the `+1` arithmetic on them are translated case by
case. -/
def extractResponseText (claude_response : List Char) : List Char :=
  let r0 := pyStrip claude_response
  let r1 :=
    if pyContains (lowerL r0) "```json".toList then
      let sm := (pyFind (lowerL r0) "```json".toList 0).getD 0
      let start :=
        match pyFind r0 ['\n'] sm with
        | some i => i + 1
        | none => 0   -- Python: find returns -1, then -1 + 1 = 0
      let stop :=
        match pyFind r0 "```".toList start with
        | some i => i
        | none => r0.length   -- `if end == -1: end = len(response)`
      pyStrip (pySlice r0 start stop)
    else if pyContains r0 "```".toList then
      let start0 := (pyFind r0 "```".toList 0).getD 0 + 3
      let start :=
        match pyFind r0 ['\n'] start0 with
        | some i => if i - start0 < 20 then i + 1 else start0
        | none => start0
      let stop :=
        match pyFind r0 "```".toList start with
        | some i => i
        | none => r0.length
      pyStrip (pySlice r0 start stop)
    else r0
  let r2 :=
    if pyContains r1 ['['] then
      let a := (pyFind r1 ['['] 0).getD 0
      let b :=
        match pyRFind r1 [']'] with
        | some i => i + 1
        | none => 0   -- Python: rfind returns -1, then -1 + 1 = 0
      pySlice r1 a b
    else r1
  pyStrip r2

/-- Result of running a Python record validator on one array element:
`ok` with the (possibly mutated) dict, `dropped` when the validator
returns False, `raised` when the Python code would raise (caught by the
surrounding `except`, which discards the whole batch). -/
inductive VRes where
  | ok (rec : Dict)
  | dropped
  | raised

/-- Python `'key' in j` for the list/string cases of a non-dict element:
equality against a string element resp. substring test. -/
def jsonHasKeyLike (j : Json) (k : String) : Bool :=
  match j with
  | .arr xs => xs.any fun x => match x with
      | .str s => s == k
      | _ => false
  | .str s => pyContainsS s k
  | _ => false

def validSeverities : List String := ["critical", "high", "medium", "low", "info"]

def requiredFindingFields : List String :=
  ["severity", "title", "description", "recommendation", "category"]

/-- `SecurityAnalyzer._validate_finding` (security_analyzer.py 202-223):
require the five fields, then coerce an invalid severity to `info`.
On a non-dict element the Python `field not in finding` membership either
evaluates (list/str) or raises `TypeError` (int/float/bool/None); indexing
a list/str with `'severity'` also raises. -/
def validate_finding (finding : Json) : VRes :=
  match finding with
  | .obj d =>
    if requiredFindingFields.all (fun k => dictHas d k) then
      match dictGet d "severity" with
      | some (.str s) =>
        if validSeverities.contains s then .ok d
        else .ok (dictInsert d "severity" (.str "info"))
      | _ => .ok (dictInsert d "severity" (.str "info"))
    else .dropped
  | .arr xs =>
    if requiredFindingFields.all (fun k => jsonHasKeyLike (.arr xs) k) then
      .raised   -- finding['severity'] on a list raises TypeError
    else .dropped
  | .str s =>
    if requiredFindingFields.all (fun k => jsonHasKeyLike (.str s) k) then
      .raised   -- finding['severity'] on a str raises TypeError
    else .dropped
  | _ => .raised   -- `'severity' in finding` raises TypeError

def validImpactLevels : List String := ["high", "medium", "low"]

def requiredImprovementFields : List String :=
  ["category", "title", "description", "suggestion", "impact_level"]

/-- The category canonicalization block of `_validate_improvement`
(code_quality_analyzer.py 203-223): lower, strip, space→hyphen, then the
substring-based remapping chain. -/
def normalizeCategory (c0 : String) : String :=
  let c := String.mk ((pyStrip (lowerL c0.toList)).map fun ch =>
    if ch = ' ' then '-' else ch)
  if pyContainsS c "best" && pyContainsS c "practice" then "best-practice"
  else if pyContainsS c "performance" || pyContainsS c "perf" then "performance"
  else if pyContainsS c "readability" || pyContainsS c "readable" ||
      pyContainsS c "clarity" then "readability"
  else if pyContainsS c "maintainability" || pyContainsS c "maintain" then
    "maintainability"
  else if pyContainsS c "security" || pyContainsS c "secure" then "security"
  else if pyContainsS c "error" && pyContainsS c "handling" then
    "error-handling"
  else c

/-- The impact / effort normalization of `_validate_improvement`
(lines 225-239): lower+strip, then default to `medium` when the value is
not in the fixed vocabulary. -/
def normalizeImpact (s : String) : String :=
  let i := pyLowerStripS s
  if validImpactLevels.contains i then i else "medium"

/-- `CodeQualityAnalyzer._validate_improvement` (code_quality_analyzer.py
187-241): require the five fields; canonicalize `category`; lower+strip
and default `impact_level`; same for `estimated_effort` when present.
Calling `.lower()` on a non-string value raises `AttributeError`. -/
def validate_improvement (improvement : Json) : VRes :=
  match improvement with
  | .obj d =>
    if requiredImprovementFields.all (fun k => dictHas d k) then
      match dictGet d "category" with
      | some (.str c0) =>
        let d2 := dictInsert d "category" (.str (normalizeCategory c0))
        match dictGet d2 "impact_level" with
        | some (.str i0) =>
          let d3 := dictInsert d2 "impact_level" (.str (normalizeImpact i0))
          match dictGet d3 "estimated_effort" with
          | none => .ok d3
          | some (.str e0) =>
            .ok (dictInsert d3 "estimated_effort" (.str (normalizeImpact e0)))
          | some _ => .raised   -- `.lower()` on a non-string
        | _ => .raised   -- `.lower()` on a non-string (or missing)
      | _ => .raised   -- `.lower()` on a non-string (or missing)
    else .dropped
  | .arr xs =>
    if requiredImprovementFields.all (fun k => jsonHasKeyLike (.arr xs) k) then
      .raised
    else .dropped
  | .str s =>
    if requiredImprovementFields.all (fun k => jsonHasKeyLike (.str s) k) then
      .raised
    else .dropped
  | _ => .raised

/-- The validation loop of both parsers: keep `ok` records in order, skip
`dropped` ones; a `raised` element aborts into the outer `except`, which
returns the empty list for the whole response. -/
def collectValidated (validate : Json → VRes) : List Json → Option (List Dict)
  | [] => some []
  | j :: rest =>
    match validate j with
    | .raised => none
    | .dropped => collectValidated validate rest
    | .ok d => (collectValidated validate rest).map (d :: ·)

/-- Shared shape of `_parse_findings` / `_parse_improvements`: extract,
`json.loads` (parse failure → `[]`), require a top-level array (else `[]`),
validate each element (an in-loop exception → `[]`). -/
def parseRecordArray (validate : Json → VRes) (claude_response : String) :
    List Dict :=
  match jsonLoads (extractResponseText claude_response.toList) with
  | none => []
  | some v =>
    match v with
    | .arr items => (collectValidated validate items).getD []
    | _ => []

/-- `SecurityAnalyzer._parse_findings` (security_analyzer.py 131-200). -/
def parse_findings (claude_response : String) : List Dict :=
  parseRecordArray validate_finding claude_response

/-- `CodeQualityAnalyzer._parse_improvements` (code_quality_analyzer.py
116-185). -/
def parse_improvements (claude_response : String) : List Dict :=
  parseRecordArray validate_improvement claude_response

/-! ## Security score (security_analyzer.py 225-253) -/

def severity_penalties : List (String × Int) :=
  [("critical", 20), ("high", 10), ("medium", 5), ("low", 2), ("info", 1)]

/-- `severity_penalties.get(finding.get('severity', 'info'), 1)`. -/
def penaltyOf (f : Dict) : Int :=
  match (dictGet f "severity").getD (Json.str "info") with
  | .str s => ((severity_penalties.find? fun p => p.1 == s).map (·.2)).getD 1
  | _ => 1   -- a non-string key misses every string key of the dict

/-- `SecurityAnalyzer.calculate_security_score`: 100 on no findings, else
100 minus the per-finding penalties, clamped to [0, 100]. -/
def calculate_security_score (findings : List Dict) : Int :=
  match findings with
  | [] => 100
  | _ =>
    let score := findings.foldl (fun s f => s - penaltyOf f) 100
    max 0 (min 100 score)

/-! ## Theorems about the analyzers' parsing and scoring -/

lemma foldl_sub_eq {α : Type} (g : α → Int) (a : Int) (l : List α) :
    l.foldl (fun s f => s - g f) a = a - (l.map g).sum := by
  induction l generalizing a with
  | nil => simp
  | cons x xs ih =>
    simp only [List.foldl_cons, List.map_cons, List.sum_cons, ih]
    ring

/-- The severity multiset [critical, high, medium, medium, info] of the
spec's scoring example. -/
def demoFindings : List Dict :=
  [[("severity", Json.str "critical")], [("severity", Json.str "high")],
   [("severity", Json.str "medium")], [("severity", Json.str "medium")],
   [("severity", Json.str "info")]]

/-- C3: `calculate_security_score` equals 100 minus the per-severity
penalties (critical 20, high 10, medium 5, low 2, info 1), clamped to
[0, 100]; the severity multiset [critical, high, medium, medium, info]
scores 59 and the empty findings list scores 100. -/
theorem c3_calculate_security_score :
    (∀ findings, calculate_security_score findings
      = max 0 (min 100 (100 - (findings.map penaltyOf).sum))) ∧
    calculate_security_score demoFindings = 59 ∧
    calculate_security_score [] = 100 := by
  refine ⟨fun findings => ?_, by decide, rfl⟩
  cases findings with
  | nil => decide
  | cons x xs =>
    show max 0 (min 100 ((x :: xs).foldl (fun s f => s - penaltyOf f) 100))
      = max 0 (min 100 (100 - ((x :: xs).map penaltyOf).sum))
    rw [foldl_sub_eq]

/-- The model response of the spec's parsing example. -/
def demoResponse : String :=
  "Here you go:\n```json\n[\x7b\"a\":1\x7d]\n```\nThanks"

/-- C5 counterexample: on the spec's example response both parsers return
`[]`, not the one-element list `[ \x7b "a": 1 \x7d ]`, because each parser
validates every array element and drops records missing the required
fields. -/
theorem c5_counterexample :
    parse_findings demoResponse ≠ [[("a", Json.num "1")]] ∧
    parse_improvements demoResponse ≠ [[("a", Json.num "1")]] ∧
    parse_findings demoResponse = [] ∧
    parse_improvements demoResponse = [] := by
  have h1 : parse_findings demoResponse = [] := rfl
  have h2 : parse_improvements demoResponse = [] := rfl
  exact ⟨by rw [h1]; simp, by rw [h2]; simp, h1, h2⟩

/-- C5 (amended): on the example response the extraction + `json.loads`
stage does produce the one-element array, but both parsers then return the
sublist of elements passing their schema validators — here `[]`, since the
element lacks the required fields; and whenever no JSON value parses, or
the top-level value is not an array, both parsers return `[]` without
raising. -/
theorem c5_parse_contract :
    jsonLoads (extractResponseText demoResponse.toList)
      = some (Json.arr [Json.obj [("a", Json.num "1")]]) ∧
    parse_findings demoResponse = [] ∧
    parse_improvements demoResponse = [] ∧
    (∀ s : String, jsonLoads (extractResponseText s.toList) = none →
      parse_findings s = [] ∧ parse_improvements s = []) ∧
    (∀ (s : String) (v : Json),
      jsonLoads (extractResponseText s.toList) = some v → v.isArr = false →
      parse_findings s = [] ∧ parse_improvements s = []) := by
  refine ⟨rfl, rfl, rfl, ?_, ?_⟩
  · intro s h
    have h2 : jsonLoads (extractResponseText s.data) = none := h
    constructor <;>
      simp [parse_findings, parse_improvements, parseRecordArray, h2]
  · intro s v h hv
    have h2 : jsonLoads (extractResponseText s.data) = some v := h
    cases v <;>
      simp_all [parse_findings, parse_improvements, parseRecordArray,
        Json.isArr]

/-- C5 witness: a response with no JSON at all parses to the empty record
list in both parsers. -/
theorem c5_parse_contract_witness :
    jsonLoads (extractResponseText "hello".toList) = none ∧
    parse_findings "hello" = [] ∧
    parse_improvements "hello" = [] :=
  ⟨rfl, (c5_parse_contract.2.2.2.1 "hello" rfl).1,
    (c5_parse_contract.2.2.2.1 "hello" rfl).2⟩

/-! ## Security scanner batching (security_analyzer.py `analyze_project`,
lines 44-98) -/

def priority_extensions : List String :=
  [".py", ".js", ".ts", ".php", ".java", ".go"]

def priority_names : List String :=
  ["auth", "login", "password", "database", "db", "sql", "api"]

/-- The Python sort key `(any(ext in path.lower()), any(name in
path.lower()))` — a lexicographic pair of booleans, encoded as the number
`2*fst + snd` so that Python's tuple order is the numeric order. -/
def securityFileKey (path : String) : Nat :=
  let l := String.mk (lowerL path.toList)
  (if priority_extensions.any (fun e => pyContainsS l e) then 2 else 0) +
    (if priority_names.any (fun n => pyContainsS l n) then 1 else 0)

/-- Insert after every element of greater-or-equal key: the stable
descending insertion matching Python's stable `sorted(..., reverse=True)`. -/
def insertByKeyDesc (x : String × String) :
    List (String × String) → List (String × String)
  | [] => [x]
  | y :: ys =>
    if securityFileKey x.1 ≤ securityFileKey y.1 then y :: insertByKeyDesc x ys
    else x :: y :: ys

/-- `sorted(code_files.items(), key=..., reverse=True)` (stable). -/
def sortByPriorityDesc (files : List (String × String)) :
    List (String × String) :=
  files.foldl (fun acc x => insertByKeyDesc x acc) []

def chunksGo {α : Type} (n : Nat) : Nat → List α → List (List α)
  | _, [] => []
  | 0, _ :: _ => []
  | f + 1, x :: xs => ((x :: xs).take n) :: chunksGo n f ((x :: xs).drop n)

/-- `for batch_idx in range(0, len(files), batch_size)` slicing. -/
def chunksOf {α : Type} (n : Nat) (l : List α) : List (List α) :=
  chunksGo n l.length l

/-- The batches `analyze_project` sends to the model: priority-sort, take
the first `max_files` (`sorted_files[:max_files]`), split into batches of
10. -/
def security_batches (code_files : List (String × String))
    (max_files : Nat) : List (List (String × String)) :=
  chunksOf 10 ((sortByPriorityDesc code_files).take max_files)

/-- The full pipeline's call `sec_analyzer.analyze_project(files_dict)`
(project_routes.py line 129) passes no cap, so Python's default
`max_files=50` applies. -/
def pipeline_security_batches (code_files : List (String × String)) :
    List (List (String × String)) :=
  security_batches code_files 50

/-- A FileSet of 51 one-line Python files. -/
def demoManyFiles : List (String × String) :=
  (List.range 51).map fun i => ("f" ++ toString i ++ ".py", "x")

/-- C6: the pipeline's security scan does NOT default to unlimited: with
51 files, the file `f50.py` is in no batch sent to the analysis call,
because `analyze_project`'s Python default `max_files=50` truncates the
sorted list — contradicting the call-site comment "analyzes ALL files". -/
theorem c6_default_cap_drops_file :
    demoManyFiles.length = 51 ∧
    (demoManyFiles.map (·.1)).contains "f50.py" = true ∧
    ((pipeline_security_batches demoManyFiles).all
      fun b => b.all fun f => f.1 != "f50.py") = true := by
  refine ⟨rfl, rfl, rfl⟩

/-! ## Quality validator normalization (C7) -/

lemma dictGet_insert_self (d : Dict) (k : String) (v : Json) :
    dictGet (dictInsert d k v) k = some v := by
  induction d with
  | nil => simp [dictInsert, dictGet]
  | cons p rest ih =>
    by_cases h : p.1 == k
    · simp [dictInsert, h, dictGet]
    · simp only [dictInsert, h, Bool.false_eq_true, if_false, dictGet]
      rw [List.find?_cons_of_neg _ (by simpa using h)]
      exact ih

lemma dictGet_insert_other (d : Dict) (k k2 : String) (v : Json)
    (h : k2 ≠ k) : dictGet (dictInsert d k v) k2 = dictGet d k2 := by
  have hk : ¬ (k = k2) := fun hc => h hc.symm
  have hkb : (k == k2) = false := beq_eq_false_iff_ne.mpr hk
  induction d with
  | nil =>
    simp [dictInsert, dictGet, List.find?, hkb]
  | cons p rest ih =>
    by_cases hp : p.1 == k
    · have hpk : p.1 = k := by simpa using hp
      simp only [dictInsert, hp, if_true, dictGet]
      rw [List.find?_cons_of_neg _ (by simp [hkb]),
        List.find?_cons_of_neg _ (by simp [hpk, hkb])]
    · simp only [dictInsert, hp, Bool.false_eq_true, if_false, dictGet]
      by_cases hq : p.1 == k2
      · rw [List.find?_cons_of_pos _ (by simpa using hq),
          List.find?_cons_of_pos _ (by simpa using hq)]
      · rw [List.find?_cons_of_neg _ (by simpa using hq),
          List.find?_cons_of_neg _ (by simpa using hq)]
        exact ih

/-- C7: the quality validator canonicalizes `"Best Practices"` to
`best-practice` and `"perf issue"` to `performance`; any `impact_level`
whose lowercased, stripped form is outside `high/medium/low` becomes
`medium`; and for every record with the required string-valued fields the
validator accepts it with exactly those normalized values stored. -/
theorem c7_quality_normalization :
    normalizeCategory "Best Practices" = "best-practice" ∧
    normalizeCategory "perf issue" = "performance" ∧
    (∀ s : String, validImpactLevels.contains (pyLowerStripS s) = false →
      normalizeImpact s = "medium") ∧
    (∀ (d : Dict) (cat imp : String),
      requiredImprovementFields.all (fun k => dictHas d k) = true →
      dictGet d "category" = some (.str cat) →
      dictGet d "impact_level" = some (.str imp) →
      (dictGet d "estimated_effort" = none ∨
        ∃ es, dictGet d "estimated_effort" = some (.str es)) →
      ∃ d2, validate_improvement (.obj d) = .ok d2 ∧
        dictGet d2 "category" = some (.str (normalizeCategory cat)) ∧
        dictGet d2 "impact_level" = some (.str (normalizeImpact imp))) := by
  refine ⟨rfl, rfl, fun s hs => ?_, fun d cat imp hreq hcat himp heff => ?_⟩
  · have hs2 : pyLowerStripS s ∉ validImpactLevels := by simpa using hs
    simp [normalizeImpact, hs2]
  · have hgi : dictGet (dictInsert d "category"
        (.str (normalizeCategory cat))) "impact_level"
        = some (.str imp) := by
      rw [dictGet_insert_other _ _ _ _ (by decide)]
      exact himp
    have hge : dictGet (dictInsert (dictInsert d "category"
        (.str (normalizeCategory cat))) "impact_level"
        (.str (normalizeImpact imp))) "estimated_effort"
        = dictGet d "estimated_effort" := by
      rw [dictGet_insert_other _ _ _ _ (by decide),
        dictGet_insert_other _ _ _ _ (by decide)]
    rcases heff with heff | ⟨es, heff⟩
    · refine ⟨dictInsert (dictInsert d "category"
        (.str (normalizeCategory cat))) "impact_level"
        (.str (normalizeImpact imp)), ?_, ?_, ?_⟩
      · simp [validate_improvement, hreq, hcat, hgi, hge, heff]
      · rw [dictGet_insert_other _ _ _ _ (by decide)]
        exact dictGet_insert_self _ _ _
      · exact dictGet_insert_self _ _ _
    · refine ⟨dictInsert (dictInsert (dictInsert d "category"
        (.str (normalizeCategory cat))) "impact_level"
        (.str (normalizeImpact imp))) "estimated_effort"
        (.str (normalizeImpact es)), ?_, ?_, ?_⟩
      · simp [validate_improvement, hreq, hcat, hgi, hge, heff]
      · rw [dictGet_insert_other _ _ _ _ (by decide),
          dictGet_insert_other _ _ _ _ (by decide)]
        exact dictGet_insert_self _ _ _
      · rw [dictGet_insert_other _ _ _ _ (by decide)]
        exact dictGet_insert_self _ _ _

/-- A concrete quality record for the C7 witness. -/
def demoImprovement : Dict :=
  [("category", Json.str "Best Practices"), ("title", Json.str "t"),
   ("description", Json.str "d"), ("suggestion", Json.str "s"),
   ("impact_level", Json.str "Huge")]

/-- C7 witness: the normalization applied to a concrete record. -/
theorem c7_quality_normalization_witness :
    requiredImprovementFields.all (fun k => dictHas demoImprovement k)
      = true ∧
    ∃ d2, validate_improvement (.obj demoImprovement) = .ok d2 ∧
      dictGet d2 "category"
        = some (.str (normalizeCategory "Best Practices")) ∧
      dictGet d2 "impact_level" = some (.str (normalizeImpact "Huge")) :=
  ⟨rfl, c7_quality_normalization.2.2.2 demoImprovement "Best Practices"
    "Huge" rfl rfl rfl (Or.inl rfl)⟩

/-! ## Retrieval indexing (rag_service.py `index_code_files` 86-128,
`index_documentation` 130-209, `reindex_project` 211-235)

The per-chunk embedding call is modelled as always succeeding; the claims
about chunk indices describe the assignment the loops perform.  Each
indexing loop is embedded as the list of `(name, chunk_index)` pairs it
stores. -/

/-- One documentation section as produced by the documentation builder:
`section.get('title', ...)`, `section.get('content', '')`,
`section.get('type', '')`. -/
structure DocSection where
  title : String
  content : String
  stype : String

/-- `if not content or len(content) < 50: continue` — the skip test of
both indexing loops. -/
def skipContent (content : String) : Bool :=
  content == "" || content.length < 50

/-- The loop of `index_code_files`: walk the FileSet in order, skip short
content, store the file under the next chunk index and increment it. -/
def codeChunksFrom : List (String × String) → Nat → List (String × Nat)
  | [], _ => []
  | (filename, content) :: rest, idx =>
    if skipContent content then codeChunksFrom rest idx
    else (filename, idx) :: codeChunksFrom rest (idx + 1)

/-- `index_code_files` starts its `chunk_index` at 0. -/
def index_code_files (code_files : List (String × String)) :
    List (String × Nat) :=
  codeChunksFrom code_files 0

/-- The list-shaped branch of `index_documentation`'s loop. -/
def docChunksFrom : List DocSection → Nat → List (String × Nat)
  | [], _ => []
  | s :: rest, idx =>
    if skipContent s.content then docChunksFrom rest idx
    else (s.title, idx) :: docChunksFrom rest (idx + 1)

/-- `index_documentation` starts its `chunk_index` at 1000 ("to avoid
conflicts with code files"). -/
def index_documentation (sections : List DocSection) : List (String × Nat) :=
  docChunksFrom sections 1000

def codeChunkIndices (code_files : List (String × String)) : List Nat :=
  (index_code_files code_files).map (·.2)

def docChunkIndices (sections : List DocSection) : List Nat :=
  (index_documentation sections).map (·.2)

def countQualC (code_files : List (String × String)) : Nat :=
  code_files.countP fun f => !(skipContent f.2)

def countQualD (sections : List DocSection) : Nat :=
  sections.countP fun s => !(skipContent s.content)

/-- `n` consecutive indices starting at `start`. -/
def idxRange (start n : Nat) : List Nat := (List.range n).map (· + start)

lemma idxRange_succ (start n : Nat) :
    idxRange start (n + 1) = start :: idxRange (start + 1) n := by
  simp [idxRange, List.range_succ_eq_map, List.map_map, Function.comp]
  intro a _
  omega

lemma mem_idxRange {i start n : Nat} :
    i ∈ idxRange start n ↔ start ≤ i ∧ i < start + n := by
  simp only [idxRange, List.mem_map, List.mem_range]
  constructor
  · rintro ⟨j, hj, rfl⟩
    omega
  · intro hi
    exact ⟨i - start, by omega, by omega⟩

lemma codeChunksFrom_indices (code_files : List (String × String)) :
    ∀ idx, (codeChunksFrom code_files idx).map (·.2)
      = idxRange idx (countQualC code_files) := by
  induction code_files with
  | nil => intro idx; simp [codeChunksFrom, countQualC, idxRange]
  | cons f rest ih =>
    intro idx
    obtain ⟨filename, content⟩ := f
    by_cases h : skipContent content
    · simp [codeChunksFrom, h, countQualC, List.countP_cons, ih idx]
    · simp only [codeChunksFrom, h, Bool.false_eq_true, if_false,
        List.map_cons, ih (idx + 1)]
      have : countQualC ((filename, content) :: rest)
          = countQualC rest + 1 := by
        simp [countQualC, List.countP_cons, h]
      rw [this, idxRange_succ]

lemma docChunksFrom_indices (sections : List DocSection) :
    ∀ idx, (docChunksFrom sections idx).map (·.2)
      = idxRange idx (countQualD sections) := by
  induction sections with
  | nil => intro idx; simp [docChunksFrom, countQualD, idxRange]
  | cons s rest ih =>
    intro idx
    by_cases h : skipContent s.content
    · simp [docChunksFrom, h, countQualD, List.countP_cons, ih idx]
    · simp only [docChunksFrom, h, Bool.false_eq_true, if_false,
        List.map_cons, ih (idx + 1)]
      have : countQualD (s :: rest) = countQualD rest + 1 := by
        simp [countQualD, List.countP_cons, h]
      rw [this, idxRange_succ]

lemma codeChunkIndices_eq (code_files : List (String × String)) :
    codeChunkIndices code_files = idxRange 0 (countQualC code_files) :=
  codeChunksFrom_indices code_files 0

lemma docChunkIndices_eq (sections : List DocSection) :
    docChunkIndices sections = idxRange 1000 (countQualD sections) :=
  docChunksFrom_indices sections 1000

/-- Three qualifying code files and two qualifying sections, as in the
spec's example. -/
def demo3CodeFiles : List (String × String) :=
  [("app.py", String.mk (List.replicate 60 'a')),
   ("util.py", String.mk (List.replicate 55 'b')),
   ("main.py", String.mk (List.replicate 50 'c'))]

def demo2Sections : List DocSection :=
  [⟨"Purpose and Objectives", String.mk (List.replicate 80 's'), "purpose"⟩,
   ⟨"Setup and Installation", String.mk (List.replicate 70 't'), "setup"⟩]

/-- C8 (amended): code chunk indices are 0,1,2,... over the files whose
content passes the length-50 test, documentation chunk indices are
1000,1001,...; the two ranges are disjoint whenever at most 1000 code
files qualify (with 1001 or more they wrap into the documentation range);
the spec's 3-files/2-sections example gets exactly `[0,1,2]` and
`[1000,1001]`. -/
theorem c8_chunk_index_ranges (code_files : List (String × String))
    (sections : List DocSection) :
    codeChunkIndices code_files = idxRange 0 (countQualC code_files) ∧
    docChunkIndices sections = idxRange 1000 (countQualD sections) ∧
    (countQualC code_files ≤ 1000 →
      ∀ i, i ∈ codeChunkIndices code_files →
        i ∉ docChunkIndices sections) ∧
    codeChunkIndices demo3CodeFiles = [0, 1, 2] ∧
    docChunkIndices demo2Sections = [1000, 1001] := by
  refine ⟨codeChunkIndices_eq code_files,
    docChunkIndices_eq sections, ?_, rfl, rfl⟩
  intro hle i hic hid
  rw [codeChunkIndices_eq code_files, mem_idxRange] at hic
  rw [docChunkIndices_eq sections, mem_idxRange] at hid
  omega

/-- C8 witness: disjointness at the spec's 3-files/2-sections example. -/
theorem c8_chunk_index_ranges_witness :
    countQualC demo3CodeFiles ≤ 1000 ∧
    ∀ i, i ∈ codeChunkIndices demo3CodeFiles →
      i ∉ docChunkIndices demo2Sections :=
  ⟨by decide,
    (c8_chunk_index_ranges demo3CodeFiles demo2Sections).2.2.1 (by decide)⟩

/-- 1001 code files that all pass the length test. -/
def manyCodeFiles : List (String × String) :=
  (List.range 1001).map fun i =>
    ("file" ++ toString i, String.mk (List.replicate 50 'x'))

def oneSection : List DocSection :=
  [⟨"Overview", String.mk (List.replicate 50 'y'), "overview"⟩]

/-- C8 counterexample: with 1001 qualifying code files the code-chunk
index 1000 collides with the first documentation-chunk index 1000 — the
ranges are NOT disjoint for every reindex run. -/
theorem c8_counterexample :
    1000 ∈ codeChunkIndices manyCodeFiles ∧
    1000 ∈ docChunkIndices oneSection := by
  constructor
  · have hcount : countQualC manyCodeFiles = 1001 := by
      have hall : ∀ f ∈ manyCodeFiles, (!(skipContent f.2)) = true := by
        intro f hf
        simp only [manyCodeFiles, List.mem_map, List.mem_range] at hf
        obtain ⟨i, hi, rfl⟩ := hf
        show (!skipContent (String.mk (List.replicate 50 'x'))) = true
        decide
      have hlen : manyCodeFiles.length = 1001 := by
        simp [manyCodeFiles]
      calc countQualC manyCodeFiles = manyCodeFiles.length :=
            List.countP_eq_length.mpr hall
        _ = 1001 := hlen
    rw [codeChunkIndices_eq manyCodeFiles, hcount, mem_idxRange]
    omega
  · have : docChunkIndices oneSection = [1000] := rfl
    rw [this]
    simp

/-! ## RAG question answering (rag_service.py `answer_question`, 19-84)

The three fallible steps — question embedding, similarity retrieval and
answer generation — are modelled as `Except`-valued collaborators; the
claim quantifies over which of them raises.  The similarity score is a
float only used inside a formatted context label, so the retrieved row
carries that label pre-rendered as text. -/

structure RetrievedEmb where
  content : String
  similarity : String
  section_title : Option String
  section_type : Option String

structure QAResult where
  message : String
  sources : List String
deriving DecidableEq, Repr

/-- The fixed reply of `answer_question`'s `except` handler. -/
def errorAnswer : QAResult :=
  { message := "Sorry, I encountered an error while processing your question. Please try again."
    sources := [] }

/-- The fixed reply when no similar embeddings exist. -/
def noContextAnswer : QAResult :=
  { message := "I don't have enough context about this project to answer your question. Please make sure the project has been processed and documentation has been generated."
    sources := [] }

/-- Python truthiness of `emb.get(...)`: `None` and `""` are falsy. -/
def optTruthy : Option String → Option String
  | none => none
  | some s => if s == "" then none else some s

/-- The source label appended for one retrieved row: prefer a non-empty
`section_title`, else a non-empty `section_type`, else nothing. -/
def sourceOf (emb : RetrievedEmb) : Option String :=
  match optTruthy emb.section_title with
  | some t => some ("Documentation: " ++ t)
  | none =>
    match optTruthy emb.section_type with
    | some t => some ("Documentation: " ++ t)
    | none => none

/-- The retrieved-chunk context string passed to the generation call. -/
def buildContext (sims : List RetrievedEmb) : String :=
  String.intercalate "\n" (sims.map fun emb =>
    "--- Content (similarity: " ++ emb.similarity ++ ") ---\n" ++
      emb.content ++ "\n")

/-- `RAGService.answer_question`: embed the question, retrieve similar
chunks, answer with the generation service; the whole body sits in one
`try` whose handler returns `errorAnswer`.  `list(set(sources))` is
modelled as first-occurrence deduplication. -/
def answer_question (embedQ : Except String (List Int))
    (findSimilar : List Int → Except String (List RetrievedEmb))
    (genAnswer : String → Except String String) : QAResult :=
  match embedQ with
  | .error _ => errorAnswer
  | .ok qv =>
    match findSimilar qv with
    | .error _ => errorAnswer
    | .ok sims =>
      match sims with
      | [] => noContextAnswer
      | _ =>
        match genAnswer (buildContext sims) with
        | .error _ => errorAnswer
        | .ok ans => { message := ans, sources := (sims.filterMap sourceOf).dedup }

/-- C9: `answer_question` is total — whichever internal step raises
(question embedding, similarity retrieval, or answer generation), it
returns the fixed apology message with an empty sources list. -/
theorem c9_rag_error_isolation :
    errorAnswer.sources = [] ∧
    (∀ (findSimilar : List Int → Except String (List RetrievedEmb))
      (genAnswer : String → Except String String) (m : String),
      answer_question (.error m) findSimilar genAnswer = errorAnswer) ∧
    (∀ (embedQ : Except String (List Int)) findSimilar genAnswer qv m,
      embedQ = .ok qv → findSimilar qv = .error m →
      answer_question embedQ findSimilar genAnswer = errorAnswer) ∧
    (∀ (embedQ : Except String (List Int)) findSimilar genAnswer qv sims m,
      embedQ = .ok qv → findSimilar qv = .ok sims → sims ≠ [] →
      genAnswer (buildContext sims) = .error m →
      answer_question embedQ findSimilar genAnswer = errorAnswer) := by
  refine ⟨rfl, fun findSimilar genAnswer m => rfl, ?_, ?_⟩
  · intro embedQ findSimilar genAnswer qv m hq hf
    subst hq
    simp [answer_question, hf]
  · intro embedQ findSimilar genAnswer qv sims m hq hf hne hg
    subst hq
    cases sims with
    | nil => exact absurd rfl hne
    | cons x xs =>
      simp [answer_question, hf, hg]

/-- C9 witness: a failing retrieval step at concrete collaborators. -/
theorem c9_rag_error_isolation_witness :
    answer_question (.ok [1, 2]) (fun _ => .error "db down")
      (fun _ => .ok "unused") = errorAnswer :=
  c9_rag_error_isolation.2.2.1 (.ok [1, 2]) (fun _ => .error "db down")
    (fun _ => .ok "unused") [1, 2] "db down" rfl rfl

/-! ## Language detection (helpers.py `detect_language`, 56-105) and the
structural analyzer (code_analyzer.py `analyze_files`, 13-62) -/

/-- The fixed extension-to-language table. -/
def extTable : List (String × String) :=
  [(".py", "Python"), (".js", "JavaScript"), (".jsx", "JavaScript"),
   (".ts", "TypeScript"), (".tsx", "TypeScript"), (".java", "Java"),
   (".cpp", "C++"), (".c", "C"), (".cs", "C#"), (".php", "PHP"),
   (".rb", "Ruby"), (".go", "Go"), (".rs", "Rust"), (".swift", "Swift"),
   (".kt", "Kotlin")]

/-- `file_path[file_path.rfind('.'):].lower() if '.' in file_path else ''`. -/
def extOf (p : String) : String :=
  if pyContains p.toList ['.'] then
    match pyRFind p.toList ['.'] with
    | some i => String.mk (lowerL (p.toList.drop i))
    | none => ""
  else ""

/-- `extensions[ext]` when the extension is in the table. -/
def langOf (path : String) : Option String :=
  (extTable.find? fun q => q.1 == extOf path).map (·.2)

/-- `counts[lang] = counts.get(lang, 0) + 1` on an insertion-ordered dict. -/
def bumpCount (counts : List (String × Nat)) (lang : String) :
    List (String × Nat) :=
  if counts.any (fun p => p.1 == lang) then
    counts.map fun p => if p.1 == lang then (p.1, p.2 + 1) else p
  else counts ++ [(lang, 1)]

/-- The extension-counting loop of `detect_language`. -/
def langCounts (paths : List String) : List (String × Nat) :=
  paths.foldl (fun cs p =>
    match langOf p with
    | some lang => bumpCount cs lang
    | none => cs) []

/-- The Python comparison `c > max_count * 0.7` on two counts. The source
compares against the float product; this model uses the exact rational
`10*c > 7*m`.  The two can differ only on counts landing exactly on the
70% boundary, a branch no claim in this file depends on. -/
def gtSeventyPercent (c m : Nat) : Bool := 7 * m < 10 * c

/-- `helpers.detect_language`: count per-language files; `'Unknown'` on an
empty count dict; else the first language of maximal count, demoted to
`'Multiple'` when another language exceeds 70% of the winner's count. -/
def detect_language (paths : List String) : String :=
  match langCounts paths with
  | [] => "Unknown"
  | c0 :: rest =>
    let maxP := rest.foldl (fun best p => if p.2 > best.2 then p else best) c0
    let max_lang := maxP.1
    let max_count :=
      (((c0 :: rest).find? fun p => p.1 == max_lang).map (·.2)).getD 0
    let similar := (c0 :: rest).filter fun p =>
      gtSeventyPercent p.2 max_count && p.1 != max_lang
    match similar with
    | [] => max_lang
    | _ => "Multiple"

structure AnalysisResult where
  file_count : Nat
  total_lines : Nat
  avg_file_size : Nat
  largest_file : Option String
  primary_language : String

def countNewlines (s : String) : Nat := s.data.countP (· == '\n')

/-- `CodeAnalyzer.analyze_files`: per-file line counts (`'\n'` count plus
one), sizes, largest file (strict improvement, first wins), integer-mean
size, and `detect_language` over the file paths. -/
def analyze_files (files : List (String × String)) : AnalysisResult :=
  { file_count := files.length
    total_lines := (files.map fun f => countNewlines f.2 + 1).sum
    avg_file_size :=
      if files.length > 0 then
        (files.map fun f => f.2.length).sum / files.length
      else 0
    largest_file :=
      (files.foldl
        (fun acc f => if f.2.length > acc.2 then (some f.1, f.2.length) else acc)
        ((none : Option String), 0)).1
    primary_language := detect_language (files.map (·.1)) }

lemma langCounts_foldl_unmapped (paths : List String) :
    ∀ acc, (∀ p ∈ paths, langOf p = none) →
      paths.foldl (fun cs p =>
        match langOf p with
        | some lang => bumpCount cs lang
        | none => cs) acc = acc := by
  induction paths with
  | nil => intro acc _; rfl
  | cons q rest ih =>
    intro acc hq
    have hq0 : langOf q = none := hq q (by simp)
    simp only [List.foldl_cons, hq0]
    exact ih acc fun p hp => hq p (by simp [hp])

lemma langCounts_nil_of_unmapped (paths : List String)
    (h : ∀ p ∈ paths, langOf p = none) : langCounts paths = [] :=
  langCounts_foldl_unmapped paths [] h

/-- C10: when no file path carries an extension of the fixed table,
`detect_language` answers the label `Unknown` (neither `Multiple` nor a
language name) and `analyze_files` reports it as the primary language. -/
theorem c10_unknown_primary_language (files : List (String × String))
    (h : ∀ p ∈ files, langOf p.1 = none) :
    detect_language (files.map (·.1)) = "Unknown" ∧
    (analyze_files files).primary_language = "Unknown" := by
  have hl : langCounts (files.map (·.1)) = [] := by
    apply langCounts_nil_of_unmapped
    intro p hp
    rw [List.mem_map] at hp
    obtain ⟨q, hq, rfl⟩ := hp
    exact h q hq
  constructor
  · simp [detect_language, hl]
  · simp [analyze_files, detect_language, hl]

/-- C10 witness: a FileSet whose only extension `.txt` is not in the
table. -/
theorem c10_unknown_primary_language_witness :
    detect_language ([("notes.txt", "hello")].map (·.1)) = "Unknown" ∧
    (analyze_files [("notes.txt", "hello")]).primary_language = "Unknown" :=
  c10_unknown_primary_language [("notes.txt", "hello")] (by decide)

end CodeDocs

